import Mathlib

/-!
Verification of the MP3-to-WAV batch converter
(`src/HexOustGame/src/resources/audio/main.py`).

The script scans one directory, converts every file whose lowercased name
ends in `.mp3` to a `.wav` file via the external pydub library, reports
per-file success or failure on the console, and reports a "no .mp3 files
found" message when nothing matched.

Embedding choices:
* A Python string is a sequence of code points, modelled as `List Char`
  (`PyStr`).  `str.lower()` is modelled per character with `Char.toLower`
  (the ASCII case, which covers every character relevant to the `.mp3`
  suffix test).
* The directory listing (`os.listdir`) is an explicit `List PyStr`
  parameter; its order is whatever the filesystem yields.
* The external decode/export call (`AudioSegment.from_mp3` + `export`) is
  an opaque environment `env : PyStr → ConvOutcome` giving, per filename,
  the outcome of the `try:` body: success, `CouldntDecodeError`,
  `FileNotFoundError`, or any other exception.
* Console output is a trace of `Event`s; filesystem writes are a list of
  `Write`s (output path plus the source filename that produced the data).
* The filesystem after the run is modelled by folding the writes over an
  initial `PyStr → Option PyStr` map; per the spec's delegated-codec
  contract, `encode` overwrites any existing file at the output path.
-/

/-- A Python string: a sequence of code points. -/
abbrev PyStr := List Char

/-- `s.lower()` (ASCII model): lowercase each character. -/
def pyLower (s : PyStr) : PyStr := s.map Char.toLower

/-- `s.endswith(suffix)`. -/
def pyEndsWith (s suffix : PyStr) : Bool := suffix.isSuffixOf s

/-- `OUTPUT_FORMAT = "wav"` (main.py line 9). -/
def OUTPUT_FORMAT : PyStr := "wav".toList

/-- `AUDIO_DIRECTORY = "."` (main.py line 7). -/
def AUDIO_DIRECTORY : PyStr := ".".toList

/-- The candidate filter: `filename.lower().endswith(".mp3")` (line 25). -/
def isMp3Name (f : PyStr) : Bool := pyEndsWith (pyLower f) (".mp3".toList)

/-- Index of the last `.` in a name, if any. -/
def lastDotIdx : PyStr → Option Nat
  | [] => none
  | c :: rest =>
    match lastDotIdx rest with
    | some i => some (i + 1)
    | none => if c = '.' then some 0 else none

/-- `os.path.splitext(f)[0]` for a bare filename (no path separator):
CPython splits at the last dot unless every character before that dot is
itself a dot (leading dots are part of the name, not an extension). -/
def splitextRoot (f : PyStr) : PyStr :=
  match lastDotIdx f with
  | none => f
  | some i => if (f.take i).all (fun c => c = '.') then f else f.take i

/-- `os.path.join(directory, filename)` for a relative filename. -/
def pathJoin (dir f : PyStr) : PyStr :=
  if dir = [] then f
  else if dir.getLast? = some '/' then dir ++ f
  else dir ++ '/' :: f

/-- `wav_filename = os.path.splitext(filename)[0] + "." + OUTPUT_FORMAT`
(line 30). -/
def wavFilename (f : PyStr) : PyStr := splitextRoot f ++ '.' :: OUTPUT_FORMAT

/-- Outcome of one file's `try:` body (decode then export), mirroring the
`except` clauses of lines 45-52. -/
inductive ConvOutcome where
  | success
  | couldntDecode
  | fileNotFound
  | otherError (msg : PyStr)
deriving DecidableEq

/-- One printed console line. -/
inductive Event where
  | scanning (dir : PyStr)
  | foundMp3 (filename : PyStr)
  | converting (filename wav : PyStr)
  | converted (wav : PyStr)
  | errDecode (filename : PyStr)
  | errFileNotFound (path : PyStr)
  | errUnexpected (filename msg : PyStr)
  | noMp3Found
  | errDirNotFound (dir : PyStr)
  | finished
deriving DecidableEq

/-- A completed export: the output path and the source filename whose
decoded audio was written there. -/
structure Write where
  path : PyStr
  source : PyStr
deriving DecidableEq

/-- The per-candidate body of the loop (lines 28-52): compute the paths,
print the `Found MP3` and `Converting` lines, then run the `try:` body;
on success the wav file is written and the success line printed, on each
exception the matching `ERROR` line is printed and nothing is written. -/
def processFile (dir : PyStr) (env : PyStr → ConvOutcome) (filename : PyStr) :
    List Event × List Write :=
  match env filename with
  | .success =>
      ([.foundMp3 filename, .converting filename (wavFilename filename),
        .converted (wavFilename filename)],
       [⟨pathJoin dir (wavFilename filename), filename⟩])
  | .couldntDecode =>
      ([.foundMp3 filename, .converting filename (wavFilename filename),
        .errDecode filename], [])
  | .fileNotFound =>
      ([.foundMp3 filename, .converting filename (wavFilename filename),
        .errFileNotFound (pathJoin dir filename)], [])
  | .otherError msg =>
      ([.foundMp3 filename, .converting filename (wavFilename filename),
        .errUnexpected filename msg], [])

/-- The `for filename in os.listdir(directory):` loop (lines 23-52),
threading the `found_mp3` flag: non-matching names are skipped entirely,
matching names set the flag and run `processFile`.  Returns the events,
the writes, and the final flag. -/
def convertLoop (dir : PyStr) (env : PyStr → ConvOutcome) :
    List PyStr → Bool → List Event × List Write × Bool
  | [], found => ([], [], found)
  | f :: rest, found =>
    if isMp3Name f then
      ((processFile dir env f).1 ++ (convertLoop dir env rest true).1,
       (processFile dir env f).2 ++ (convertLoop dir env rest true).2.1,
       (convertLoop dir env rest true).2.2)
    else convertLoop dir env rest found

/-- `convert_mp3_to_wav(directory)` (lines 12-55): print the scanning
line, run the loop with `found_mp3 = False`, and print the `No .mp3 files
found` line when the flag is still false. -/
def convert_mp3_to_wav (dir : PyStr) (listing : List PyStr)
    (env : PyStr → ConvOutcome) : List Event × List Write :=
  (Event.scanning dir ::
     (convertLoop dir env listing false).1 ++
     (if (convertLoop dir env listing false).2.2 then []
      else [Event.noMp3Found]),
   (convertLoop dir env listing false).2.1)

/-- The `if __name__ == "__main__":` block (lines 58-64): if the
configured directory does not exist, print the error line and scan
nothing; otherwise run the converter; either way print the final
completion line and exit 0.  Returns (console trace, writes, exit code). -/
def mainRun (dirExists : Bool) (listing : List PyStr)
    (env : PyStr → ConvOutcome) : List Event × List Write × Nat :=
  if dirExists then
    ((convert_mp3_to_wav AUDIO_DIRECTORY listing env).1 ++ [Event.finished],
     (convert_mp3_to_wav AUDIO_DIRECTORY listing env).2, 0)
  else
    ([Event.errDirNotFound AUDIO_DIRECTORY, Event.finished], [], 0)

/-- Modelled from the spec: the delegated codec's `encode` writes the
output file at the given path, overwriting any existing file there.  File
contents are tracked as the name of the source file they came from. -/
def applyWrite (fs : PyStr → Option PyStr) (w : Write) : PyStr → Option PyStr :=
  fun p => if p = w.path then some w.source else fs p

/-- Apply a run's writes to an initial filesystem, in order (a later write
to the same path overwrites an earlier one). -/
def applyWrites (fs : PyStr → Option PyStr) (ws : List Write) :
    PyStr → Option PyStr :=
  ws.foldl applyWrite fs

/-- The conversion attempts recorded for filename `f`: the output names of
its `Converting '...' to '...'` lines. -/
def attemptsFor (evs : List Event) (f : PyStr) : List PyStr :=
  evs.filterMap fun e =>
    match e with
    | .converting g w => if g = f then some w else none
    | _ => none

/-- Is this console line one of the `ERROR:` lines? -/
def isErrorEvent : Event → Bool
  | .errDecode _ => true
  | .errFileNotFound _ => true
  | .errUnexpected _ _ => true
  | .errDirNotFound _ => true
  | _ => false

/-- The `ERROR` line the loop body prints for a failing outcome, `none`
on success. -/
def failureReport (dir f : PyStr) : ConvOutcome → Option Event
  | .success => none
  | .couldntDecode => some (.errDecode f)
  | .fileNotFound => some (.errFileNotFound (pathJoin dir f))
  | .otherError msg => some (.errUnexpected f msg)

/-! ### Helper lemmas about the loop and the trace -/

theorem attemptsFor_append (a b : List Event) (f : PyStr) :
    attemptsFor (a ++ b) f = attemptsFor a f ++ attemptsFor b f := by
  simp [attemptsFor]

theorem attemptsFor_scanning (dir : PyStr) (l : List Event) (f : PyStr) :
    attemptsFor (Event.scanning dir :: l) f = attemptsFor l f := by
  simp [attemptsFor]

theorem attemptsFor_flag_tail (b : Bool) (f : PyStr) :
    attemptsFor (if b then [] else [Event.noMp3Found]) f = [] := by
  cases b <;> simp [attemptsFor]

theorem attemptsFor_processFile_self (dir : PyStr) (env : PyStr → ConvOutcome)
    (f : PyStr) : attemptsFor (processFile dir env f).1 f = [wavFilename f] := by
  cases h : env f <;> simp [processFile, h, attemptsFor]

theorem attemptsFor_processFile_ne (dir : PyStr) (env : PyStr → ConvOutcome)
    (g f : PyStr) (h : g ≠ f) : attemptsFor (processFile dir env g).1 f = [] := by
  cases hg : env g <;> simp [processFile, hg, attemptsFor, h]

theorem attemptsFor_loop_not_mem (dir : PyStr) (env : PyStr → ConvOutcome) :
    ∀ (l : List PyStr) (fd : Bool) (f : PyStr), f ∉ l →
    attemptsFor (convertLoop dir env l fd).1 f = [] := by
  intro l
  induction l with
  | nil => intro fd f _; simp [convertLoop, attemptsFor]
  | cons g rest ih =>
    intro fd f hf
    have hgf : g ≠ f := fun h => hf (h ▸ List.mem_cons_self g rest)
    have hfr : f ∉ rest := fun h => hf (List.mem_cons_of_mem g h)
    by_cases hg : isMp3Name g = true
    · simp [convertLoop, hg, attemptsFor_append,
        attemptsFor_processFile_ne dir env g f hgf, ih true f hfr]
    · simp only [convertLoop, hg, if_neg, Bool.false_eq_true, not_false_iff,
        ite_false]
      exact ih fd f hfr

theorem attemptsFor_loop_mem (dir : PyStr) (env : PyStr → ConvOutcome) :
    ∀ (l : List PyStr) (fd : Bool) (f : PyStr), l.Nodup → f ∈ l →
    isMp3Name f = true →
    attemptsFor (convertLoop dir env l fd).1 f = [wavFilename f] := by
  intro l
  induction l with
  | nil => intro fd f _ hm; exact absurd hm (List.not_mem_nil f)
  | cons g rest ih =>
    intro fd f hnd hm h3
    rw [List.nodup_cons] at hnd
    rcases List.mem_cons.mp hm with heq | hmr
    · subst heq
      simp [convertLoop, h3, attemptsFor_append,
        attemptsFor_processFile_self dir env f,
        attemptsFor_loop_not_mem dir env rest true f hnd.1]
    · have hgf : g ≠ f := fun h => hnd.1 (h ▸ hmr)
      by_cases hg : isMp3Name g = true
      · simp [convertLoop, hg, attemptsFor_append,
          attemptsFor_processFile_ne dir env g f hgf, ih true f hnd.2 hmr h3]
      · simp only [convertLoop, hg, Bool.false_eq_true, not_false_iff, ite_false]
        exact ih fd f hnd.2 hmr h3

/-- The heart of C1/C2: with a duplicate-free listing, each matching
filename gets exactly one conversion attempt, at its wav output name. -/
theorem attemptsFor_convert (dir : PyStr) (listing : List PyStr)
    (env : PyStr → ConvOutcome) (f : PyStr) (hnd : listing.Nodup)
    (hm : f ∈ listing) (h3 : isMp3Name f = true) :
    attemptsFor (convert_mp3_to_wav dir listing env).1 f = [wavFilename f] := by
  unfold convert_mp3_to_wav
  dsimp only
  rw [attemptsFor_append, attemptsFor_scanning, attemptsFor_flag_tail,
    attemptsFor_loop_mem dir env listing false f hnd hm h3, List.append_nil]

theorem convertLoop_flag (dir : PyStr) (env : PyStr → ConvOutcome) :
    ∀ (l : List PyStr) (fd : Bool),
    (convertLoop dir env l fd).2.2 = (fd || l.any isMp3Name) := by
  intro l
  induction l with
  | nil => intro fd; simp [convertLoop]
  | cons g rest ih =>
    intro fd
    by_cases hg : isMp3Name g = true
    · simp [convertLoop, hg, ih true]
    · simp [convertLoop, hg, ih fd,
        Bool.false_eq_true]

theorem convertLoop_all_not (dir : PyStr) (env : PyStr → ConvOutcome) :
    ∀ (l : List PyStr) (fd : Bool), (∀ f, f ∈ l → isMp3Name f = false) →
    convertLoop dir env l fd = ([], [], fd) := by
  intro l
  induction l with
  | nil => intro fd _; rfl
  | cons g rest ih =>
    intro fd h
    have hg : isMp3Name g = false := h g (List.mem_cons_self g rest)
    simp only [convertLoop, hg, Bool.false_eq_true, not_false_iff, ite_false]
    exact ih fd (fun f hf => h f (List.mem_cons_of_mem g hf))

theorem noMp3Found_not_mem_processFile (dir : PyStr) (env : PyStr → ConvOutcome)
    (f : PyStr) : Event.noMp3Found ∉ (processFile dir env f).1 := by
  cases h : env f <;> simp [processFile, h]

theorem noMp3Found_not_mem_loop (dir : PyStr) (env : PyStr → ConvOutcome) :
    ∀ (l : List PyStr) (fd : Bool),
    Event.noMp3Found ∉ (convertLoop dir env l fd).1 := by
  intro l
  induction l with
  | nil => intro fd; simp [convertLoop]
  | cons g rest ih =>
    intro fd
    by_cases hg : isMp3Name g = true
    · simp only [convertLoop, hg, ite_true, List.mem_append]
      rintro (h | h)
      · exact noMp3Found_not_mem_processFile dir env g h
      · exact ih true h
    · simp only [convertLoop, hg, Bool.false_eq_true, not_false_iff, ite_false]
      exact ih fd

theorem failureReport_mem_processFile (dir : PyStr) (env : PyStr → ConvOutcome)
    (f : PyStr) (e : Event) (h : failureReport dir f (env f) = some e) :
    e ∈ (processFile dir env f).1 := by
  cases hf : env f <;> rw [hf] at h <;> simp [failureReport] at h <;>
    simp [processFile, hf, h]

theorem failureReport_isError (dir f : PyStr) (o : ConvOutcome) (e : Event)
    (h : failureReport dir f o = some e) : isErrorEvent e = true := by
  cases o <;> simp [failureReport] at h <;> simp [← h, isErrorEvent]

theorem mem_loop_of_mem_processFile (dir : PyStr) (env : PyStr → ConvOutcome) :
    ∀ (l : List PyStr) (fd : Bool) (f : PyStr) (e : Event), f ∈ l →
    isMp3Name f = true → e ∈ (processFile dir env f).1 →
    e ∈ (convertLoop dir env l fd).1 := by
  intro l
  induction l with
  | nil => intro fd f e hm; exact absurd hm (List.not_mem_nil f)
  | cons g rest ih =>
    intro fd f e hm h3 he
    rcases List.mem_cons.mp hm with heq | hmr
    · subst heq
      simp only [convertLoop, h3, ite_true, List.mem_append]
      exact Or.inl he
    · by_cases hg : isMp3Name g = true
      · simp only [convertLoop, hg, ite_true, List.mem_append]
        exact Or.inr (ih true f e hmr h3 he)
      · simp only [convertLoop, hg, Bool.false_eq_true, not_false_iff, ite_false]
        exact ih fd f e hmr h3 he

theorem mem_writes_loop (dir : PyStr) (env : PyStr → ConvOutcome) :
    ∀ (l : List PyStr) (fd : Bool) (w : Write),
    w ∈ (convertLoop dir env l fd).2.1 →
    ∃ f, f ∈ l ∧ isMp3Name f = true ∧ env f = ConvOutcome.success ∧
      w = ⟨pathJoin dir (wavFilename f), f⟩ := by
  intro l
  induction l with
  | nil => intro fd w h; simp [convertLoop] at h
  | cons g rest ih =>
    intro fd w hw
    by_cases hg : isMp3Name g = true
    · simp only [convertLoop, hg, ite_true, List.mem_append] at hw
      rcases hw with hw | hw
      · cases he : env g <;> rw [processFile, he] at hw <;> simp at hw
        exact ⟨g, List.mem_cons_self g rest, hg, he, hw⟩
      · obtain ⟨f, hf, h3, hs, hweq⟩ := ih true w hw
        exact ⟨f, List.mem_cons_of_mem g hf, h3, hs, hweq⟩
    · simp only [convertLoop, hg, Bool.false_eq_true, not_false_iff,
        ite_false] at hw
      obtain ⟨f, hf, h3, hs, hweq⟩ := ih fd w hw
      exact ⟨f, List.mem_cons_of_mem g hf, h3, hs, hweq⟩

/-! ### Helper lemmas about the filesystem model and filenames -/

theorem applyWrites_cons (fs : PyStr → Option PyStr) (w : Write)
    (ws : List Write) (p : PyStr) :
    applyWrites fs (w :: ws) p = applyWrites (applyWrite fs w) ws p := rfl

theorem applyWrites_eq_of_not_path (ws : List Write) :
    ∀ (fs : PyStr → Option PyStr) (p : PyStr), (∀ w, w ∈ ws → p ≠ w.path) →
    applyWrites fs ws p = fs p := by
  induction ws with
  | nil => intro fs p _; rfl
  | cons w ws ih =>
    intro fs p h
    rw [applyWrites_cons,
      ih (applyWrite fs w) p (fun w' hw' => h w' (List.mem_cons_of_mem w hw'))]
    simp [applyWrite, h w (List.mem_cons_self w ws)]

theorem applyWrites_ne_none (ws : List Write) :
    ∀ (fs : PyStr → Option PyStr) (p : PyStr), fs p ≠ none →
    applyWrites fs ws p ≠ none := by
  induction ws with
  | nil => intro fs p h; exact h
  | cons w ws ih =>
    intro fs p h
    rw [applyWrites_cons]
    apply ih
    simp only [applyWrite]
    by_cases hp : p = w.path <;> simp [hp, h]

theorem getLast?_pathJoin (dir f : PyStr) (h : f ≠ []) :
    (pathJoin dir f).getLast? = f.getLast? := by
  cases hf : f.getLast? with
  | none => exact absurd (List.getLast?_eq_none_iff.mp hf) h
  | some a =>
    unfold pathJoin
    by_cases h1 : dir = []
    · simp [h1, hf]
    · by_cases h2 : dir.getLast? = some '/'
      · simp [h1, h2, List.getLast?_append, hf]
      · rw [if_neg h1, if_neg h2]
        have h4 : (('/' :: f : PyStr)).getLast? = some a := by
          rw [show (('/' :: f : PyStr)) = ['/'] ++ f from rfl,
            List.getLast?_append, hf]
          rfl
        rw [List.getLast?_append, h4]
        simp

theorem isMp3Name_ne_nil (f : PyStr) (h : isMp3Name f = true) : f ≠ [] := by
  intro hf
  subst hf
  exact absurd h (by decide)

theorem isMp3Name_getLast (f : PyStr) (h : isMp3Name f = true) :
    (f.getLast?).map Char.toLower = some '3' := by
  rw [isMp3Name, pyEndsWith, List.isSuffixOf_iff_suffix] at h
  obtain ⟨t, ht⟩ := h
  have h34 : ((".mp3".toList : PyStr)).getLast? = some '3' := by decide
  have hl : (pyLower f).getLast? = some '3' := by
    rw [← ht, List.getLast?_append, h34]
    rfl
  rw [pyLower, List.getLast?_map] at hl
  exact hl

theorem wavFilename_getLast (g : PyStr) :
    (wavFilename g).getLast? = some 'v' := by
  have h : (('.' :: OUTPUT_FORMAT : PyStr)).getLast? = some 'v' := by decide
  rw [wavFilename, List.getLast?_append, h]
  rfl

theorem wavFilename_ne_nil (g : PyStr) : wavFilename g ≠ [] := by
  intro h
  have hv := wavFilename_getLast g
  rw [h] at hv
  exact absurd hv (by decide)

/-- A candidate's source path never collides with any computed wav output
path: the source name ends in `3` (after lowercasing) while every wav name
ends in `v`. -/
theorem pathJoin_mp3_ne_wav (dir f g : PyStr) (h : isMp3Name f = true) :
    pathJoin dir f ≠ pathJoin dir (wavFilename g) := by
  intro he
  have h1 := isMp3Name_getLast f h
  have h2 : (pathJoin dir f).getLast? = f.getLast? :=
    getLast?_pathJoin dir f (isMp3Name_ne_nil f h)
  have h3 : (pathJoin dir (wavFilename g)).getLast? = some 'v' := by
    rw [getLast?_pathJoin dir _ (wavFilename_ne_nil g), wavFilename_getLast]
  rw [he, h3] at h2
  rw [← h2] at h1
  exact absurd h1 (by decide)

/-- Dropping a non-matching name from the listing changes nothing in the
loop. -/
theorem convertLoop_skip (dir : PyStr) (env : PyStr → ConvOutcome) (f : PyStr)
    (h : isMp3Name f = false) :
    ∀ (l1 l2 : List PyStr) (fd : Bool),
    convertLoop dir env (l1 ++ f :: l2) fd = convertLoop dir env (l1 ++ l2) fd := by
  intro l1
  induction l1 with
  | nil =>
    intro l2 fd
    simp only [List.nil_append, convertLoop, h, Bool.false_eq_true,
      not_false_iff, ite_false]
  | cons g gs ih =>
    intro l2 fd
    by_cases hg : isMp3Name g = true
    · simp only [List.cons_append, convertLoop, hg, ite_true, List.append_eq]
      rw [ih l2 true]
    · simp only [List.cons_append, convertLoop, hg, Bool.false_eq_true,
        not_false_iff, ite_false, List.append_eq]
      exact ih l2 fd

/-! ### Claim theorems -/

/-- C1: for every filename `f` in the scanned directory whose lowercased
form ends with `.mp3`, the converter attempts exactly one conversion for
`f`, and the attempted output filename is `f` with its extension stripped
(Python `os.path.splitext` semantics) plus `.wav`. -/
theorem claim1_one_attempt_per_mp3 (dir : PyStr) (listing : List PyStr)
    (env : PyStr → ConvOutcome) (f : PyStr) (hnd : listing.Nodup)
    (hm : f ∈ listing) (h3 : isMp3Name f = true) :
    attemptsFor (convert_mp3_to_wav dir listing env).1 f = [wavFilename f]
    ∧ wavFilename f = splitextRoot f ++ ".wav".toList := by
  constructor
  · exact attemptsFor_convert dir listing env f hnd hm h3
  · rw [wavFilename, show (('.' :: OUTPUT_FORMAT : PyStr)) = ".wav".toList
      from by decide]

theorem claim1_witness :
    ["song.mp3".toList].Nodup ∧ "song.mp3".toList ∈ ["song.mp3".toList]
    ∧ isMp3Name "song.mp3".toList = true
    ∧ (attemptsFor (convert_mp3_to_wav ".".toList ["song.mp3".toList]
          (fun _ => ConvOutcome.success)).1 "song.mp3".toList
        = [wavFilename "song.mp3".toList]
       ∧ wavFilename "song.mp3".toList
          = splitextRoot "song.mp3".toList ++ ".wav".toList) :=
  ⟨by decide, by decide, by decide,
   claim1_one_attempt_per_mp3 ".".toList ["song.mp3".toList]
     (fun _ => ConvOutcome.success) "song.mp3".toList
     (by decide) (by decide) (by decide)⟩

/-- C2: every per-file failure (decode failure, missing source file, or
any other exception) is reported as an `ERROR` line at the per-file
boundary, and regardless of any file's outcome every matching file in the
listing still gets its one conversion attempt — no per-file failure aborts
the batch. -/
theorem claim2_failures_contained (dir : PyStr) (listing : List PyStr)
    (env : PyStr → ConvOutcome) (f : PyStr) (hnd : listing.Nodup)
    (hm : f ∈ listing) (h3 : isMp3Name f = true) :
    (∀ e, failureReport dir f (env f) = some e →
        e ∈ (convert_mp3_to_wav dir listing env).1 ∧ isErrorEvent e = true)
    ∧ ∀ g, g ∈ listing → isMp3Name g = true →
        attemptsFor (convert_mp3_to_wav dir listing env).1 g
          = [wavFilename g] := by
  constructor
  · intro e he
    constructor
    · have h1 : e ∈ (processFile dir env f).1 :=
        failureReport_mem_processFile dir env f e he
      have h2 : e ∈ (convertLoop dir env listing false).1 :=
        mem_loop_of_mem_processFile dir env listing false f e hm h3 h1
      unfold convert_mp3_to_wav
      dsimp only
      rw [List.mem_append, List.mem_cons]
      exact Or.inl (Or.inr h2)
    · exact failureReport_isError dir f (env f) e he
  · intro g hg hg3
    exact attemptsFor_convert dir listing env g hnd hg hg3

theorem claim2_witness :
    (Event.errDecode "a.mp3".toList ∈
        (convert_mp3_to_wav ".".toList ["a.mp3".toList, "b.mp3".toList]
          (fun g => if g = "a.mp3".toList then ConvOutcome.couldntDecode
            else ConvOutcome.success)).1
      ∧ isErrorEvent (Event.errDecode "a.mp3".toList) = true)
    ∧ attemptsFor
        (convert_mp3_to_wav ".".toList ["a.mp3".toList, "b.mp3".toList]
          (fun g => if g = "a.mp3".toList then ConvOutcome.couldntDecode
            else ConvOutcome.success)).1 "b.mp3".toList
      = [wavFilename "b.mp3".toList] :=
  ⟨(claim2_failures_contained ".".toList ["a.mp3".toList, "b.mp3".toList]
      (fun g => if g = "a.mp3".toList then ConvOutcome.couldntDecode
        else ConvOutcome.success) "a.mp3".toList
      (by decide) (by decide) (by decide)).1
      (Event.errDecode "a.mp3".toList) (by decide),
   (claim2_failures_contained ".".toList ["a.mp3".toList, "b.mp3".toList]
      (fun g => if g = "a.mp3".toList then ConvOutcome.couldntDecode
        else ConvOutcome.success) "a.mp3".toList
      (by decide) (by decide) (by decide)).2
      "b.mp3".toList (by decide) (by decide)⟩

/-- C3: if no listed name matches `.mp3` (case-insensitively), the trace
is exactly the scanning line followed by one `No .mp3 files found` line —
produced after the scan — and nothing is written; if at least one name
matches, that line is never produced. -/
theorem claim3_no_match_message (dir : PyStr) (listing : List PyStr)
    (env : PyStr → ConvOutcome) :
    ((∀ f, f ∈ listing → isMp3Name f = false) →
       (convert_mp3_to_wav dir listing env).1
           = [Event.scanning dir, Event.noMp3Found]
       ∧ (convert_mp3_to_wav dir listing env).2 = [])
    ∧ ((∃ f, f ∈ listing ∧ isMp3Name f = true) →
       Event.noMp3Found ∉ (convert_mp3_to_wav dir listing env).1) := by
  constructor
  · intro h
    unfold convert_mp3_to_wav
    rw [convertLoop_all_not dir env listing false h]
    exact ⟨rfl, rfl⟩
  · intro h
    obtain ⟨f, hf, h3⟩ := h
    have hany : listing.any isMp3Name = true :=
      List.any_eq_true.mpr ⟨f, hf, h3⟩
    unfold convert_mp3_to_wav
    dsimp only
    rw [convertLoop_flag dir env listing false, Bool.false_or, hany]
    simp only [ite_true, List.append_nil, List.mem_cons]
    rintro (h | h)
    · exact absurd h (by simp)
    · exact noMp3Found_not_mem_loop dir env listing false h

theorem claim3_witness :
    (convert_mp3_to_wav ".".toList ["readme.txt".toList]
        (fun _ => ConvOutcome.success)).1
      = [Event.scanning ".".toList, Event.noMp3Found]
    ∧ (convert_mp3_to_wav ".".toList ["readme.txt".toList]
        (fun _ => ConvOutcome.success)).2 = [] :=
  (claim3_no_match_message ".".toList ["readme.txt".toList]
    (fun _ => ConvOutcome.success)).1 (by decide)

/-- C4: any case variant of the `.mp3` extension qualifies, and the
computed output name is always `song.wav` with a lowercase `wav`
extension — the case of the source extension does not propagate. -/
theorem claim4_lowercase_output :
    isMp3Name "song.mp3".toList = true
    ∧ isMp3Name "song.Mp3".toList = true
    ∧ isMp3Name "song.mP3".toList = true
    ∧ isMp3Name "song.MP3".toList = true
    ∧ wavFilename "song.mp3".toList = "song.wav".toList
    ∧ wavFilename "song.Mp3".toList = "song.wav".toList
    ∧ wavFilename "song.mP3".toList = "song.wav".toList
    ∧ wavFilename "song.MP3".toList = "song.wav".toList := by decide

/-- C5: the entry point always exits 0 and always ends the trace with the
completion line; when the configured directory does not exist, the whole
run is exactly one directory-not-found line plus the completion line, with
zero files scanned and nothing written. -/
theorem claim5_exit_and_dir_check :
    ∀ (dirExists : Bool) (listing : List PyStr) (env : PyStr → ConvOutcome),
    (mainRun dirExists listing env).2.2 = 0
    ∧ (mainRun dirExists listing env).1.getLast? = some Event.finished
    ∧ mainRun false listing env
        = ([Event.errDirNotFound AUDIO_DIRECTORY, Event.finished], [], 0) := by
  intro de listing env
  refine ⟨?_, ?_, rfl⟩
  · cases de <;> rfl
  · cases de
    · rfl
    · show ((convert_mp3_to_wav AUDIO_DIRECTORY listing env).1
          ++ [Event.finished]).getLast? = some Event.finished
      exact List.getLast?_concat _

/-- C6: a listed name that does not case-insensitively end in `.mp3` is
ignored entirely — removing it from the listing changes neither the trace
nor the writes of the run. -/
theorem claim6_non_matching_ignored (dir : PyStr) (env : PyStr → ConvOutcome)
    (l1 l2 : List PyStr) (f : PyStr) (h : isMp3Name f = false) :
    convert_mp3_to_wav dir (l1 ++ f :: l2) env
      = convert_mp3_to_wav dir (l1 ++ l2) env := by
  unfold convert_mp3_to_wav
  rw [convertLoop_skip dir env f h l1 l2 false]

theorem claim6_witness :
    isMp3Name "notes.txt".toList = false
    ∧ convert_mp3_to_wav ".".toList ["a.mp3".toList, "notes.txt".toList]
        (fun _ => ConvOutcome.success)
      = convert_mp3_to_wav ".".toList ["a.mp3".toList]
        (fun _ => ConvOutcome.success) :=
  ⟨by decide,
   claim6_non_matching_ignored ".".toList (fun _ => ConvOutcome.success)
     ["a.mp3".toList] [] "notes.txt".toList (by decide)⟩

/-- C7: with a pre-existing `track.wav` next to a new `track.mp3`, a
successful run performs one write at the existing `./track.wav` path, the
trace contains no error line, the pre-existing content is overwritten by
the converted data, and the writes are identical to a run in which no
`track.wav` was present (no uniqueness check before exporting). -/
theorem claim7_overwrite_existing :
    (convert_mp3_to_wav ".".toList ["track.wav".toList, "track.mp3".toList]
        (fun _ => ConvOutcome.success)).2
      = [⟨"./track.wav".toList, "track.mp3".toList⟩]
    ∧ ((convert_mp3_to_wav ".".toList ["track.wav".toList, "track.mp3".toList]
        (fun _ => ConvOutcome.success)).1.all
          (fun e => !isErrorEvent e)) = true
    ∧ applyWrites
        (fun p => if p = "./track.wav".toList
          then some "pre-existing".toList else none)
        (convert_mp3_to_wav ".".toList ["track.wav".toList, "track.mp3".toList]
          (fun _ => ConvOutcome.success)).2
        "./track.wav".toList = some "track.mp3".toList
    ∧ (convert_mp3_to_wav ".".toList ["track.wav".toList, "track.mp3".toList]
        (fun _ => ConvOutcome.success)).2
      = (convert_mp3_to_wav ".".toList ["track.mp3".toList]
        (fun _ => ConvOutcome.success)).2 := by decide

/-- C8: across a whole run, the filesystem changes only at wav output
paths inside the target directory, every matching source file's own path
is left untouched, and no existing file is ever deleted. -/
theorem claim8_frame (dir : PyStr) (listing : List PyStr)
    (env : PyStr → ConvOutcome) (fs0 : PyStr → Option PyStr) :
    (∀ p, applyWrites fs0 (convert_mp3_to_wav dir listing env).2 p ≠ fs0 p →
        ∃ f, f ∈ listing ∧ isMp3Name f = true
          ∧ p = pathJoin dir (wavFilename f))
    ∧ (∀ f, f ∈ listing → isMp3Name f = true →
        applyWrites fs0 (convert_mp3_to_wav dir listing env).2
            (pathJoin dir f)
          = fs0 (pathJoin dir f))
    ∧ (∀ p, fs0 p ≠ none →
        applyWrites fs0 (convert_mp3_to_wav dir listing env).2 p ≠ none) := by
  have hw : ∀ w, w ∈ (convert_mp3_to_wav dir listing env).2 →
      ∃ f, f ∈ listing ∧ isMp3Name f = true
        ∧ w.path = pathJoin dir (wavFilename f) := by
    intro w hmem
    obtain ⟨f, hf, h3, _, hweq⟩ :=
      mem_writes_loop dir env listing false w hmem
    exact ⟨f, hf, h3, by rw [hweq]⟩
  refine ⟨?_, ?_, ?_⟩
  · intro p hp
    by_contra hnex
    push_neg at hnex
    apply hp
    apply applyWrites_eq_of_not_path
    intro w hwmem heq
    obtain ⟨f, hf, h3, hpath⟩ := hw w hwmem
    exact hnex f hf h3 (heq.trans hpath)
  · intro f hf h3
    apply applyWrites_eq_of_not_path
    intro w hwmem
    obtain ⟨g, _, _, hpath⟩ := hw w hwmem
    rw [hpath]
    exact pathJoin_mp3_ne_wav dir f g h3
  · intro p hp
    exact applyWrites_ne_none (convert_mp3_to_wav dir listing env).2 fs0 p hp

theorem claim8_witness :
    applyWrites (fun _ => (none : Option PyStr))
        (convert_mp3_to_wav ".".toList ["a.mp3".toList]
          (fun _ => ConvOutcome.success)).2
        (pathJoin ".".toList "a.mp3".toList)
      = (fun _ => (none : Option PyStr)) (pathJoin ".".toList "a.mp3".toList) :=
  (claim8_frame ".".toList ["a.mp3".toList] (fun _ => ConvOutcome.success)
    (fun _ => (none : Option PyStr))).2.1
    "a.mp3".toList (by decide) (by decide)

/-- C9: the entry named exactly `.mp3` qualifies as a candidate, but its
leading dot is not treated as an extension separator, so the computed
output name is `.mp3.wav`, not `.wav`. -/
theorem claim9_leading_dot :
    isMp3Name ".mp3".toList = true
    ∧ wavFilename ".mp3".toList = ".mp3.wav".toList
    ∧ wavFilename ".mp3".toList ≠ ".wav".toList := by decide

/-- C10: `track.mp3` and `track.MP3` are both candidates mapping to the
same `./track.wav` output path; the run writes that path twice, in listing
order, so the later conversion's data is what remains on disk. -/
theorem claim10_case_collision :
    isMp3Name "track.mp3".toList = true
    ∧ isMp3Name "track.MP3".toList = true
    ∧ wavFilename "track.mp3".toList = "track.wav".toList
    ∧ wavFilename "track.MP3".toList = "track.wav".toList
    ∧ (convert_mp3_to_wav ".".toList ["track.mp3".toList, "track.MP3".toList]
        (fun _ => ConvOutcome.success)).2
      = [⟨"./track.wav".toList, "track.mp3".toList⟩,
         ⟨"./track.wav".toList, "track.MP3".toList⟩]
    ∧ applyWrites (fun _ => (none : Option PyStr))
        (convert_mp3_to_wav ".".toList ["track.mp3".toList, "track.MP3".toList]
          (fun _ => ConvOutcome.success)).2
        "./track.wav".toList = some "track.MP3".toList := by decide
